import Mathlib

/-!
Verification of the `Set` façade of `tux_lockfree` (`src/set.rs`).

The repository ships only `set.rs`; the underlying `Map`, its `Preview`
policy type and its `Removed` handle live in a sibling module that is not
part of the sources.  Following the specification (§3–§7), the map is a
key-addressed container: descent locates at most one stored element whose
key equals the probe key, insertion consults an accept policy and either
publishes, replaces (yielding the old record as a `Removed`) or fails
returning the rejected element, and removal detaches the matching record.
We model the sequential semantics of this container as an association list
of stored elements; the set façade itself is translated line by line from
`src/set.rs`.

Elements are drawn from an arbitrary type `α` together with a key
projection `key : α → Nat` standing for the (consistent) `Hash`/`Ord`
implementation: two elements are "equal" for the container exactly when
their projections coincide.  This captures both plain integer elements
(`key = id`) and the test type `EqI { i, j }` whose equality and hash use
only field `i` (`key = Prod.fst`).
-/

namespace TuxLockfree

/-- Modelled from the spec: the `Preview` policy answer the map's
`insert_with` closure returns (§4.3).  The set only ever produces
`New(())` (proceed, unit value) or `Discard` (reject). -/
inductive Preview where
  | New
  | Discard
deriving DecidableEq, Repr

/-- Modelled from the spec: the reclamation-relevant state of a `Removed`'s
origin container (§5, §6): whether the origin has been destroyed and how
many reader pins are active on it. -/
structure PinState where
  originDead : Bool
  activePins : Nat
deriving DecidableEq, Repr

/-- Modelled from the spec: unwrapping or mutating a `Removed` succeeds
"only when no pin on origin is active (or origin destroyed)" (§6). -/
def PinState.unwrapAllowed (p : PinState) : Bool :=
  p.originDead || p.activePins == 0

/-- A detached record freshly handed out by a sequentially used, live
container: origin alive, no sensitive reads active. -/
def noPins : PinState where
  originDead := false
  activePins := 0

/-- Modelled from the spec: the map's `Removed` handle — it owns the
detached `(key, value)` record (here `V = ()`, so only the key is kept)
and carries a handle to its origin's reclamation state (§5, §9). -/
structure MapRemoved (α : Type) where
  key : α
  origin : PinState
deriving DecidableEq, Repr

/-- Modelled from the spec: the map's three-variant insertion result
(§6): `Created`, `Updated(Removed)`, `Failed(E)`. -/
inductive MapInsertion (α E : Type) where
  | Created
  | Updated (old : MapRemoved α)
  | Failed (e : E)
deriving DecidableEq, Repr

/-- Modelled from the spec: descent for a probe key `k` finds the stored
element whose key equals `k`, if any (§4.2).  At most one such element is
reachable (spec invariant 5); on the list model we return the first. -/
def mapGet {α : Type} (key : α → Nat) : List α → Nat → Option α
  | [], _ => none
  | x :: m, k => if key x == k then some x else mapGet key m k

/-- Modelled from the spec: detaching every record whose key equals `k`
(§4.4); under spec invariant 5 there is at most one. -/
def eraseKey {α : Type} (key : α → Nat) (m : List α) (k : Nat) : List α :=
  m.filter (fun x => !(key x == k))

/-- Modelled from the spec: `Map::insert_with` (§4.3).  The accept policy
is consulted with the found stored element, if any; `New` publishes the
new record — `Created` on an empty slot, `Updated(old)` when it replaces
an equal-keyed record — and `Discard` fails, returning the rejected
element with no observable effect (§4.9, §7). -/
def mapInsertWith {α : Type} (key : α → Nat) (m : List α) (elem : α)
    (f : α → Option α → Preview) : MapInsertion α α × List α :=
  match mapGet key m (key elem) with
  | some stored =>
      match f elem (some stored) with
      | Preview.New =>
          (MapInsertion.Updated ⟨stored, noPins⟩,
            elem :: eraseKey key m (key elem))
      | Preview.Discard => (MapInsertion.Failed elem, m)
  | none =>
      match f elem none with
      | Preview.New => (MapInsertion.Created, elem :: m)
      | Preview.Discard => (MapInsertion.Failed elem, m)

/-- Modelled from the spec: `Map::remove_with` (§4.4).  The matching
record is detached only when the accept closure agrees; an absent key or
a rejecting closure leaves the container untouched and yields `None`. -/
def mapRemoveWith {α : Type} (key : α → Nat) (m : List α) (k : Nat)
    (f : α → Bool) : Option (MapRemoved α) × List α :=
  match mapGet key m k with
  | some stored =>
      if f stored then (some ⟨stored, noPins⟩, eraseKey key m k)
      else (none, m)
  | none => (none, m)

/-- Modelled from the spec: `Map::remove` — unconditional removal
(§4.4). -/
def mapRemove {α : Type} (key : α → Nat) (m : List α) (k : Nat) :
    Option (MapRemoved α) × List α :=
  mapRemoveWith key m k (fun _ => true)

/-- Modelled from the spec: `Map::reinsert_with` (§4.5).  The detached
record is republished by pointer; the accept closure sees the given
element and the found stored element, if any.  Acceptance yields
`Created` (key absent) or `Updated(old)` (equal key present); rejection
returns the `Removed` intact as `Failed` (§4.9, §7). -/
def mapReinsertWith {α : Type} (key : α → Nat) (m : List α)
    (r : MapRemoved α) (f : α → Option α → Bool) :
    MapInsertion α (MapRemoved α) × List α :=
  match mapGet key m (key r.key) with
  | some stored =>
      if f r.key (some stored) then
        (MapInsertion.Updated ⟨stored, noPins⟩,
          r.key :: eraseKey key m (key r.key))
      else (MapInsertion.Failed r, m)
  | none =>
      if f r.key none then (MapInsertion.Created, r.key :: m)
      else (MapInsertion.Failed r, m)

/-- Modelled from the spec: `MapRemoved::try_into` — consuming the record
succeeds only when the origin's pin discipline allows it; otherwise the
handle is returned intact (§6). -/
def MapRemoved.tryInto {α : Type} (r : MapRemoved α) :
    Except (MapRemoved α) α :=
  if r.origin.unwrapAllowed then Except.ok r.key else Except.error r

/-- Modelled from the spec: `MapRemoved::try_as_mut` — mutable access is
granted (`some`) only when the origin's pin discipline allows it; the
handle itself is never consumed, so it is returned alongside (§6). -/
def MapRemoved.tryAsMut {α : Type} (r : MapRemoved α) :
    Option α × MapRemoved α :=
  if r.origin.unwrapAllowed then (some r.key, r) else (none, r)

/-! ## The set façade, translated from `src/set.rs` -/

/-- `Set<T, H>` wraps a `Map<T, (), H>` (`set.rs` line 20). -/
structure SetS (α : Type) where
  inner : List α
deriving DecidableEq, Repr

/-- `Removed<T>` wraps the map's removed handle (`set.rs` line 390). -/
structure Removed (α : Type) where
  inner : MapRemoved α
deriving DecidableEq, Repr

/-- `Removed::new` (`set.rs` line 395). -/
def Removed.new {α : Type} (inner : MapRemoved α) : Removed α := ⟨inner⟩

/-- `Deref for Removed`: read-only access to the element
(`set.rs` lines 417–423). -/
def Removed.deref {α : Type} (r : Removed α) : α := r.inner.key

/-- `Removed::try_into` (`set.rs` lines 409–414). -/
def Removed.tryInto {α : Type} (r : Removed α) : Except (Removed α) α :=
  match MapRemoved.tryInto r.inner with
  | Except.ok elem => Except.ok elem
  | Except.error inner => Except.error (Removed.new inner)

/-- `Removed::try_as_mut` (`set.rs` lines 402–404); the second component
is the handle after the call. -/
def Removed.tryAsMut {α : Type} (r : Removed α) : Option α × Removed α :=
  match MapRemoved.tryAsMut r.inner with
  | (found, inner) => (found, Removed.new inner)

/-- The set-level insertion result (`set.rs` lines 258–268). -/
inductive Insertion (α E : Type) where
  | Created
  | Updated (old : Removed α)
  | Failed (e : E)
deriving DecidableEq, Repr

/-- `Set::get` (`set.rs` lines 81–90): forwards to the map; the guard
exposes the stored element. -/
def SetS.get {α : Type} (key : α → Nat) (s : SetS α) (k : Nat) : Option α :=
  mapGet key s.inner k

/-- `Set::contains` (`set.rs` lines 67–73): `self.inner.get(elem).is_some()`. -/
def SetS.contains {α : Type} (key : α → Nat) (s : SetS α) (k : Nat) : Bool :=
  (mapGet key s.inner k).isSome

/-- `Set::insert` (`set.rs` lines 94–110): insert with the
discard-if-present policy; `Updated` is `unreachable!()`, modelled as
`none`. -/
def SetS.insert {α : Type} (key : α → Nat) (s : SetS α) (elem : α) :
    Option (Except α Unit × SetS α) :=
  match mapInsertWith key s.inner elem
      (fun _ stored =>
        if stored.isSome then Preview.Discard else Preview.New) with
  | (MapInsertion.Created, m) => some (Except.ok (), ⟨m⟩)
  | (MapInsertion.Failed e, m) => some (Except.error e, ⟨m⟩)
  | (MapInsertion.Updated _, _) => none

/-- `Set::insert_with` (`set.rs` lines 117–135): the interactive closure
decides between `New(())` and `Discard`. -/
def SetS.insertWith {α : Type} (key : α → Nat) (s : SetS α) (elem : α)
    (interactive : α → Option α → Bool) : Insertion α α × SetS α :=
  match mapInsertWith key s.inner elem
      (fun e stored =>
        if interactive e stored then Preview.New else Preview.Discard) with
  | (MapInsertion.Created, m) => (Insertion.Created, ⟨m⟩)
  | (MapInsertion.Updated old, m) =>
      (Insertion.Updated (Removed.new old), ⟨m⟩)
  | (MapInsertion.Failed e, m) => (Insertion.Failed e, ⟨m⟩)

/-- `Set::reinsert` (`set.rs` lines 146–157): reinsert with the
proceed-only-if-absent closure `|_, stored| stored.is_none()`; `Updated`
is `unreachable!()`, modelled as `none`. -/
def SetS.reinsert {α : Type} (key : α → Nat) (s : SetS α) (r : Removed α) :
    Option (Except (Removed α) Unit × SetS α) :=
  match mapReinsertWith key s.inner r.inner (fun _ stored => stored.isNone) with
  | (MapInsertion.Created, m) => some (Except.ok (), ⟨m⟩)
  | (MapInsertion.Failed removed, m) =>
      some (Except.error (Removed.new removed), ⟨m⟩)
  | (MapInsertion.Updated _, _) => none

/-- `Set::reinsert_with` (`set.rs` lines 172–191). -/
def SetS.reinsertWith {α : Type} (key : α → Nat) (s : SetS α)
    (r : Removed α) (interactive : α → Option α → Bool) :
    Insertion α (Removed α) × SetS α :=
  match mapReinsertWith key s.inner r.inner interactive with
  | (MapInsertion.Created, m) => (Insertion.Created, ⟨m⟩)
  | (MapInsertion.Updated old, m) =>
      (Insertion.Updated (Removed.new old), ⟨m⟩)
  | (MapInsertion.Failed e, m) => (Insertion.Failed (Removed.new e), ⟨m⟩)

/-- `Set::remove` (`set.rs` lines 197–203). -/
def SetS.remove {α : Type} (key : α → Nat) (s : SetS α) (k : Nat) :
    Option (Removed α) × SetS α :=
  match mapRemove key s.inner k with
  | (found, m) => (found.map Removed.new, ⟨m⟩)

/-- `Set::remove_with` (`set.rs` lines 212–225). -/
def SetS.removeWith {α : Type} (key : α → Nat) (s : SetS α) (k : Nat)
    (interactive : α → Bool) : Option (Removed α) × SetS α :=
  match mapRemoveWith key s.inner k interactive with
  | (found, m) => (found.map Removed.new, ⟨m⟩)

/-! ## Helper lemmas -/

/-- If descent finds nothing with key `k`, erasing key `k` is the
identity. -/
theorem eraseKey_eq_self_of_get_none {α : Type} (key : α → Nat)
    (m : List α) (k : Nat) (h : mapGet key m k = none) :
    eraseKey key m k = m := by
  induction m with
  | nil => rfl
  | cons x m ih =>
      unfold mapGet at h
      by_cases hx : key x == k
      · simp [hx] at h
      · simp [hx] at h
        simpa [eraseKey, hx] using ih h

/-- After erasing key `k`, descent for `k` finds nothing. -/
theorem mapGet_eraseKey_self {α : Type} (key : α → Nat)
    (m : List α) (k : Nat) :
    mapGet key (eraseKey key m k) k = none := by
  induction m with
  | nil => rfl
  | cons x m ih =>
      by_cases hx : key x == k
      · simpa [eraseKey, hx] using ih
      · simpa [eraseKey, mapGet, hx] using ih

/-- Erasing key `k` does not change descent for any other key `j`. -/
theorem mapGet_eraseKey_other {α : Type} (key : α → Nat)
    (m : List α) (k j : Nat) (hjk : j ≠ k) :
    mapGet key (eraseKey key m k) j = mapGet key m j := by
  induction m with
  | nil => rfl
  | cons x m ih =>
      by_cases hxk : key x == k
      · have hxk' : key x = k := by simpa using hxk
        have hxj : (key x == j) = false := by
          simp only [hxk', beq_eq_false_iff_ne]
          exact Ne.symm hjk
        simp [eraseKey, mapGet, hxk, hxj] at ih ⊢
        exact ih
      · by_cases hxj : key x == j
        · simp [eraseKey, mapGet, hxk, hxj]
        · simp [eraseKey, mapGet, hxk, hxj] at ih ⊢
          exact ih

/-- A successful descent returns an element with the probed key. -/
theorem mapGet_some_key {α : Type} (key : α → Nat)
    (m : List α) (k : Nat) (x : α) (h : mapGet key m k = some x) :
    key x = k := by
  induction m with
  | nil => simp [mapGet] at h
  | cons y m ih =>
      unfold mapGet at h
      by_cases hy : key y == k
      · simp [hy] at h
        subst h
        simpa using hy
      · simp [hy] at h
        exact ih h

/-! ## Claim theorems -/

/-- C1: for every set `S` and element `k`, if no element equal to `k` is
present then `insert(k)` returns `Created` (`Ok`) and afterwards
`contains(k)` is true; if an equal element is already present, `insert(k)`
returns `Failed` carrying back exactly the element that was passed in,
leaving the set unchanged — so `insert` fails only in the already-present
case. -/
theorem insert_created_or_failed {α : Type} (key : α → Nat) (s : SetS α)
    (elem : α) :
    (SetS.contains key s (key elem) = false →
      SetS.insert key s elem = some (Except.ok (), ⟨elem :: s.inner⟩) ∧
      SetS.contains key ⟨elem :: s.inner⟩ (key elem) = true) ∧
    (SetS.contains key s (key elem) = true →
      SetS.insert key s elem = some (Except.error elem, s)) := by
  cases hget : mapGet key s.inner (key elem) with
  | none =>
      refine ⟨fun _ => ⟨?_, ?_⟩, fun hcon => ?_⟩
      · simp [SetS.insert, mapInsertWith, hget]
      · simp [SetS.contains, mapGet]
      · simp [SetS.contains, hget] at hcon
  | some stored =>
      refine ⟨fun habs => ?_, fun _ => ?_⟩
      · simp [SetS.contains, hget] at habs
      · simp [SetS.insert, mapInsertWith, hget]

/-- Witness for C1 at concrete inputs: the empty set and the singleton
set `{3}` over `Nat` elements with the identity key. -/
theorem insert_created_or_failed_witness :
    (SetS.contains (fun n => n) (⟨[]⟩ : SetS Nat) 3 = false ∧
      (SetS.insert (fun n => n) (⟨[]⟩ : SetS Nat) 3 =
          some (Except.ok (), ⟨[3]⟩) ∧
        SetS.contains (fun n => n) (⟨[3]⟩ : SetS Nat) 3 = true)) ∧
    (SetS.contains (fun n => n) (⟨[3]⟩ : SetS Nat) 3 = true ∧
      SetS.insert (fun n => n) (⟨[3]⟩ : SetS Nat) 3 =
        some (Except.error 3, ⟨[3]⟩)) :=
  ⟨⟨by decide, (insert_created_or_failed (fun n => n) ⟨[]⟩ 3).1 (by decide)⟩,
    ⟨by decide, (insert_created_or_failed (fun n => n) ⟨[3]⟩ 3).2 (by decide)⟩⟩

/-- C7: a rejecting accept closure changes nothing and loses nothing:
`insert_with` returns `Failed` with exactly the passed element,
`remove_with` returns `None` leaving the stored element in place,
`reinsert_with` returns `Failed` carrying the `Removed` intact, and in
every case the set is identical before and after the call. -/
theorem rejecting_closure_no_change {α : Type} (key : α → Nat) (s : SetS α)
    (elem : α) (k : Nat) (r : Removed α) :
    SetS.insertWith key s elem (fun _ _ => false) =
        (Insertion.Failed elem, s) ∧
    SetS.removeWith key s k (fun _ => false) = (none, s) ∧
    SetS.reinsertWith key s r (fun _ _ => false) =
        (Insertion.Failed r, s) := by
  refine ⟨?_, ?_, ?_⟩
  · cases hget : mapGet key s.inner (key elem) with
    | none => simp [SetS.insertWith, mapInsertWith, hget]
    | some stored => simp [SetS.insertWith, mapInsertWith, hget]
  · cases hget : mapGet key s.inner k with
    | none => simp [SetS.removeWith, mapRemoveWith, hget]
    | some stored => simp [SetS.removeWith, mapRemoveWith, hget]
  · cases hget : mapGet key s.inner (key r.inner.key) with
    | none => simp [SetS.reinsertWith, mapReinsertWith, Removed.new, hget]
    | some stored => simp [SetS.reinsertWith, mapReinsertWith, Removed.new, hget]

/-- C8: `contains(k)` returns exactly `get(k).is_some()`; `contains` is
true precisely when `get` returns some guard, and depends on the guard
only through its existence. -/
theorem contains_is_get_isSome {α : Type} (key : α → Nat) (s : SetS α)
    (k : Nat) :
    SetS.contains key s k = (SetS.get key s k).isSome ∧
    (SetS.contains key s k = true ↔ ∃ g, SetS.get key s k = some g) := by
  refine ⟨rfl, ?_⟩
  simp [SetS.contains, SetS.get, Option.isSome_iff_exists]

/-- C9: the `unreachable!()` arms of `Set::insert` and `Set::reinsert`
are never executed: their accept policies (discard or reject whenever a
stored element exists) make the map's result `Created` or `Failed`, never
`Updated`, so the modelled operations always produce a value. -/
theorem insert_reinsert_never_unreachable {α : Type} (key : α → Nat)
    (s : SetS α) (elem : α) (r : Removed α) :
    (SetS.insert key s elem).isSome = true ∧
    (SetS.reinsert key s r).isSome = true := by
  constructor
  · cases hget : mapGet key s.inner (key elem) with
    | none => simp [SetS.insert, mapInsertWith, hget]
    | some stored => simp [SetS.insert, mapInsertWith, hget]
  · cases hget : mapGet key s.inner (key r.inner.key) with
    | none => simp [SetS.reinsert, mapReinsertWith, hget]
    | some stored => simp [SetS.reinsert, mapReinsertWith, hget]

/-- C2: `insert_with(k, always-true)` returns `Created` when no equal
element is present and `Updated(prior)` carrying the previously stored
element when one is present; `insert_with` with an always-false closure
returns `Failed` when an equal element is present. -/
theorem insert_with_accept_spec {α : Type} (key : α → Nat) (s : SetS α)
    (elem : α) :
    (SetS.contains key s (key elem) = false →
      SetS.insertWith key s elem (fun _ _ => true) =
        (Insertion.Created, ⟨elem :: s.inner⟩)) ∧
    (∀ prior, SetS.get key s (key elem) = some prior →
      SetS.insertWith key s elem (fun _ _ => true) =
        (Insertion.Updated (Removed.new ⟨prior, noPins⟩),
          ⟨elem :: eraseKey key s.inner (key elem)⟩)) ∧
    (SetS.contains key s (key elem) = true →
      SetS.insertWith key s elem (fun _ _ => false) =
        (Insertion.Failed elem, s)) := by
  cases hget : mapGet key s.inner (key elem) with
  | none =>
      refine ⟨fun _ => ?_, fun prior hp => ?_, fun hcon => ?_⟩
      · simp [SetS.insertWith, mapInsertWith, hget]
      · simp [SetS.get, hget] at hp
      · simp [SetS.contains, hget] at hcon
  | some stored =>
      refine ⟨fun habs => ?_, fun prior hp => ?_, fun _ => ?_⟩
      · simp [SetS.contains, hget] at habs
      · have hps : prior = stored := by
          simp [SetS.get, hget] at hp
          exact hp.symm
        subst hps
        simp [SetS.insertWith, mapInsertWith, Removed.new, hget]
      · simp [SetS.insertWith, mapInsertWith, hget]

/-- Witness for C2 on the test scenario's element type: pairs whose key
(`Hash`/`Ord`) is the first component and whose second component is
distinguishing metadata; the set holds `{i:34,j:10}` and `{i:32,j:0}`. -/
theorem insert_with_accept_spec_witness :
    (SetS.contains Prod.fst (⟨[(34, 10), (32, 0)]⟩ : SetS (Nat × Nat)) 33 =
        false ∧
      SetS.insertWith Prod.fst ⟨[(34, 10), (32, 0)]⟩ ((33 : Nat), (2 : Nat))
          (fun _ _ => true) =
        (Insertion.Created, ⟨[(33, 2), (34, 10), (32, 0)]⟩)) ∧
    (SetS.get Prod.fst (⟨[(34, 10), (32, 0)]⟩ : SetS (Nat × Nat)) 34 =
        some (34, 10) ∧
      SetS.insertWith Prod.fst ⟨[(34, 10), (32, 0)]⟩ ((34 : Nat), (6 : Nat))
          (fun _ _ => true) =
        (Insertion.Updated (Removed.new ⟨(34, 10), noPins⟩),
          ⟨[(34, 6), (32, 0)]⟩)) ∧
    (SetS.contains Prod.fst (⟨[(34, 10), (32, 0)]⟩ : SetS (Nat × Nat)) 34 =
        true ∧
      SetS.insertWith Prod.fst ⟨[(34, 10), (32, 0)]⟩ ((34 : Nat), (2 : Nat))
          (fun _ _ => false) =
        (Insertion.Failed (34, 2), ⟨[(34, 10), (32, 0)]⟩)) :=
  ⟨⟨by decide,
      (insert_with_accept_spec Prod.fst ⟨[(34, 10), (32, 0)]⟩ (33, 2)).1
        (by decide)⟩,
    ⟨by decide,
      (insert_with_accept_spec Prod.fst ⟨[(34, 10), (32, 0)]⟩ (34, 6)).2.1
        (34, 10) (by decide)⟩,
    ⟨by decide,
      (insert_with_accept_spec Prod.fst ⟨[(34, 10), (32, 0)]⟩ (34, 2)).2.2
        (by decide)⟩⟩

/-- C5: when `k` is absent, `remove(k)` returns `None` and leaves the set
untouched; `insert(k)` followed by `remove(k)` returns `Some` of the
inserted element and restores the set exactly to its prior state — so a
further `remove(k)` returns `None` again. -/
theorem insert_remove_roundtrip {α : Type} (key : α → Nat) (s : SetS α)
    (elem : α) (habs : SetS.contains key s (key elem) = false) :
    SetS.remove key s (key elem) = (none, s) ∧
    SetS.insert key s elem = some (Except.ok (), ⟨elem :: s.inner⟩) ∧
    SetS.remove key ⟨elem :: s.inner⟩ (key elem) =
      (some (Removed.new ⟨elem, noPins⟩), s) := by
  have hget : mapGet key s.inner (key elem) = none := by
    cases hg : mapGet key s.inner (key elem) with
    | none => rfl
    | some x => simp [SetS.contains, hg] at habs
  refine ⟨?_, ?_, ?_⟩
  · simp [SetS.remove, mapRemove, mapRemoveWith, hget]
  · simp [SetS.insert, mapInsertWith, hget]
  · have h1 : mapGet key (elem :: s.inner) (key elem) = some elem := by
      simp [mapGet]
    have h2 : eraseKey key (elem :: s.inner) (key elem) = s.inner := by
      have h3 := eraseKey_eq_self_of_get_none key s.inner (key elem) hget
      simp [eraseKey] at h3 ⊢
      exact h3
    simp [SetS.remove, mapRemove, mapRemoveWith, Removed.new, h1, h2]

/-- Witness for C5 on the empty `Nat` set and element `7`. -/
theorem insert_remove_roundtrip_witness :
    SetS.contains (fun n => n) (⟨[]⟩ : SetS Nat) 7 = false ∧
    (SetS.remove (fun n => n) (⟨[]⟩ : SetS Nat) 7 = (none, ⟨[]⟩) ∧
      SetS.insert (fun n => n) (⟨[]⟩ : SetS Nat) 7 =
        some (Except.ok (), ⟨[7]⟩) ∧
      SetS.remove (fun n => n) (⟨[7]⟩ : SetS Nat) 7 =
        (some (Removed.new ⟨7, noPins⟩), ⟨[]⟩)) :=
  ⟨by decide, insert_remove_roundtrip (fun n => n) ⟨[]⟩ 7 (by decide)⟩

/-- C4: `reinsert_with(removed, accept)` returns `Updated(old)` handing
the old element back as a `Removed` when an equal key is present and the
closure accepts; returns `Failed` carrying the given `Removed` intact
when the closure rejects; and returns `Created` when the key is absent
and the closure accepts. -/
theorem reinsert_with_spec {α : Type} (key : α → Nat) (s : SetS α)
    (r : Removed α) :
    (∀ prior, SetS.get key s (key r.inner.key) = some prior →
      SetS.reinsertWith key s r (fun _ _ => true) =
        (Insertion.Updated (Removed.new ⟨prior, noPins⟩),
          ⟨r.inner.key :: eraseKey key s.inner (key r.inner.key)⟩)) ∧
    SetS.reinsertWith key s r (fun _ _ => false) =
      (Insertion.Failed r, s) ∧
    (SetS.contains key s (key r.inner.key) = false →
      SetS.reinsertWith key s r (fun _ _ => true) =
        (Insertion.Created, ⟨r.inner.key :: s.inner⟩)) := by
  cases hget : mapGet key s.inner (key r.inner.key) with
  | none =>
      refine ⟨fun prior hp => ?_, ?_, fun _ => ?_⟩
      · simp [SetS.get, hget] at hp
      · simp [SetS.reinsertWith, mapReinsertWith, Removed.new, hget]
      · simp [SetS.reinsertWith, mapReinsertWith, hget]
  | some stored =>
      refine ⟨fun prior hp => ?_, ?_, fun hcon => ?_⟩
      · have hps : prior = stored := by
          simp [SetS.get, hget] at hp
          exact hp.symm
        subst hps
        simp [SetS.reinsertWith, mapReinsertWith, Removed.new, hget]
      · simp [SetS.reinsertWith, mapReinsertWith, Removed.new, hget]
      · simp [SetS.contains, hget] at hcon

/-- Witness for C4 on the test scenario: the set holds `{i:34,j:6}`; the
detached records are `r34 = {i:34,j:10}` and `r32 = {i:32,j:0}`. -/
theorem reinsert_with_spec_witness :
    (SetS.get Prod.fst (⟨[(34, 6)]⟩ : SetS (Nat × Nat)) 34 =
        some (34, 6) ∧
      SetS.reinsertWith Prod.fst ⟨[(34, 6)]⟩
          (Removed.new ⟨((34 : Nat), (10 : Nat)), noPins⟩)
          (fun _ _ => true) =
        (Insertion.Updated (Removed.new ⟨(34, 6), noPins⟩),
          ⟨[(34, 10)]⟩)) ∧
    SetS.reinsertWith Prod.fst (⟨[(34, 6)]⟩ : SetS (Nat × Nat))
        (Removed.new ⟨((32 : Nat), (0 : Nat)), noPins⟩)
        (fun _ _ => false) =
      (Insertion.Failed (Removed.new ⟨(32, 0), noPins⟩), ⟨[(34, 6)]⟩) ∧
    (SetS.contains Prod.fst (⟨[(34, 6)]⟩ : SetS (Nat × Nat)) 32 = false ∧
      SetS.reinsertWith Prod.fst ⟨[(34, 6)]⟩
          (Removed.new ⟨((32 : Nat), (0 : Nat)), noPins⟩)
          (fun _ _ => true) =
        (Insertion.Created, ⟨[(32, 0), (34, 6)]⟩)) :=
  ⟨⟨by decide,
      (reinsert_with_spec Prod.fst ⟨[(34, 6)]⟩
          (Removed.new ⟨(34, 10), noPins⟩)).1 (34, 6) (by decide)⟩,
    (reinsert_with_spec Prod.fst ⟨[(34, 6)]⟩
        (Removed.new ⟨(32, 0), noPins⟩)).2.1,
    ⟨by decide,
      (reinsert_with_spec Prod.fst ⟨[(34, 6)]⟩
          (Removed.new ⟨(32, 0), noPins⟩)).2.2 (by decide)⟩⟩

/-- C6: removing an element and reinserting the returned `Removed`
restores the original key set: the reinsert succeeds, a subsequent
`insert` of an equal-keyed element returns `Failed` with that element,
and every key's membership equals what it was before the removal. -/
theorem remove_reinsert_roundtrip {α : Type} (key : α → Nat) (s : SetS α)
    (k : Nat) (r : Removed α) (s2 : SetS α)
    (hrem : SetS.remove key s k = (some r, s2)) :
    SetS.reinsert key s2 r =
      some (Except.ok (), ⟨r.inner.key :: s2.inner⟩) ∧
    (∀ elem, key elem = k →
      SetS.insert key ⟨r.inner.key :: s2.inner⟩ elem =
        some (Except.error elem, ⟨r.inner.key :: s2.inner⟩)) ∧
    (∀ j, SetS.contains key ⟨r.inner.key :: s2.inner⟩ j =
      SetS.contains key s j) := by
  cases hget : mapGet key s.inner k with
  | none =>
      exfalso
      simp [SetS.remove, mapRemove, mapRemoveWith, hget] at hrem
  | some stored =>
      have hpair : some (Removed.new (⟨stored, noPins⟩ : MapRemoved α)) =
            some r ∧ (⟨eraseKey key s.inner k⟩ : SetS α) = s2 := by
        have := hrem
        simp only [SetS.remove, mapRemove, mapRemoveWith, hget, if_pos,
          Option.map_some, Prod.mk.injEq] at this
        simpa using this
      obtain ⟨hr1, hr2⟩ := hpair
      have hr1' : r = Removed.new ⟨stored, noPins⟩ :=
        (Option.some.inj hr1).symm
      subst hr1'
      subst hr2
      have hkey : key stored = k := mapGet_some_key key s.inner k stored hget
      have herase : mapGet key (eraseKey key s.inner k) (key stored) = none := by
        rw [hkey]
        exact mapGet_eraseKey_self key s.inner k
      refine ⟨?_, ?_, ?_⟩
      · simp [SetS.reinsert, mapReinsertWith, Removed.new, herase]
      · intro elem helem
        have hh : (key stored == key elem) = true := by
          simp [hkey, helem]
        simp [SetS.insert, mapInsertWith, mapGet, Removed.new, hh]
      · intro j
        by_cases hj : j = k
        · subst hj
          simp [SetS.contains, mapGet, Removed.new, hkey, hget]
        · have hh : (key stored == j) = false := by
            simp [hkey]
            exact fun h => hj h.symm
          simp [SetS.contains, mapGet, Removed.new, hh,
            mapGet_eraseKey_other key s.inner k j hj]

/-- Witness for C6 on the scenario set `{9, 7, 0}` (stored as
`[0, 7, 9]`) with `9` removed and reinserted. -/
theorem remove_reinsert_roundtrip_witness :
    SetS.remove (fun n => n) (⟨[0, 7, 9]⟩ : SetS Nat) 9 =
      (some (Removed.new ⟨9, noPins⟩), ⟨[0, 7]⟩) ∧
    (SetS.reinsert (fun n => n) (⟨[0, 7]⟩ : SetS Nat)
        (Removed.new ⟨9, noPins⟩) =
      some (Except.ok (), ⟨[9, 0, 7]⟩) ∧
    SetS.insert (fun n => n) (⟨[9, 0, 7]⟩ : SetS Nat) 9 =
      some (Except.error 9, ⟨[9, 0, 7]⟩) ∧
    SetS.contains (fun n => n) (⟨[9, 0, 7]⟩ : SetS Nat) 7 =
      SetS.contains (fun n => n) (⟨[0, 7, 9]⟩ : SetS Nat) 7) :=
  have h := remove_reinsert_roundtrip (fun n => n) ⟨[0, 7, 9]⟩ 9
    (Removed.new ⟨9, noPins⟩) ⟨[0, 7]⟩ (by decide)
  ⟨by decide, h.1, h.2.1 9 rfl, h.2.2 7⟩

/-- C3 counterexample: reinsertion into the origin set is **not**
unconditionally `Ok`.  Trace over `Nat` elements: from the set `{3}`,
`remove(3)` detaches the element; after `3` is inserted again in the
meantime, `reinsert` of the detached record back into the very same set
returns `Err` (the `stored.is_none()` accept closure of `Set::reinsert`
rejects because an equal key is present), not `Ok`. -/
theorem reinsert_unconditional_counterexample :
    SetS.remove (fun n => n) (⟨[3]⟩ : SetS Nat) 3 =
      (some (Removed.new ⟨3, noPins⟩), ⟨[]⟩) ∧
    SetS.insert (fun n => n) (⟨[]⟩ : SetS Nat) 3 =
      some (Except.ok (), ⟨[3]⟩) ∧
    SetS.reinsert (fun n => n) (⟨[3]⟩ : SetS Nat)
        (Removed.new ⟨3, noPins⟩) =
      some (Except.error (Removed.new ⟨3, noPins⟩), ⟨[3]⟩) ∧
    (SetS.reinsert (fun n => n) (⟨[3]⟩ : SetS Nat)
        (Removed.new ⟨3, noPins⟩)).map (fun p => p.1.isOk) = some false :=
  ⟨rfl, rfl, rfl, rfl⟩

/-- C3 amended: `reinsert` of a `Removed` into the origin set (sequential
use) returns `Ok` when no element with an equal key is present, and
returns `Err` carrying the `Removed` back intact when an equal-keyed
element has been inserted in the meantime; the pointer hand-back itself
is always safe, so no other failure mode exists. -/
theorem reinsert_ok_iff_absent {α : Type} (key : α → Nat) (s : SetS α)
    (r : Removed α) :
    (SetS.contains key s (key r.inner.key) = false →
      SetS.reinsert key s r =
        some (Except.ok (), ⟨r.inner.key :: s.inner⟩)) ∧
    (SetS.contains key s (key r.inner.key) = true →
      SetS.reinsert key s r = some (Except.error r, s)) := by
  cases hget : mapGet key s.inner (key r.inner.key) with
  | none =>
      refine ⟨fun _ => ?_, fun hcon => ?_⟩
      · simp [SetS.reinsert, mapReinsertWith, hget]
      · simp [SetS.contains, hget] at hcon
  | some stored =>
      refine ⟨fun habs => ?_, fun _ => ?_⟩
      · simp [SetS.contains, hget] at habs
      · simp [SetS.reinsert, mapReinsertWith, Removed.new, hget]

/-- Witness for the amended C3: reinsertion of a detached `9` succeeds
into `{0, 7}` and fails back into `{9}`. -/
theorem reinsert_ok_iff_absent_witness :
    (SetS.contains (fun n => n) (⟨[0, 7]⟩ : SetS Nat) 9 = false ∧
      SetS.reinsert (fun n => n) (⟨[0, 7]⟩ : SetS Nat)
          (Removed.new ⟨9, noPins⟩) =
        some (Except.ok (), ⟨[9, 0, 7]⟩)) ∧
    (SetS.contains (fun n => n) (⟨[9]⟩ : SetS Nat) 9 = true ∧
      SetS.reinsert (fun n => n) (⟨[9]⟩ : SetS Nat)
          (Removed.new ⟨9, noPins⟩) =
        some (Except.error (Removed.new ⟨9, noPins⟩), ⟨[9]⟩)) :=
  ⟨⟨by decide,
      (reinsert_ok_iff_absent (fun n => n) ⟨[0, 7]⟩
          (Removed.new ⟨9, noPins⟩)).1 (by decide)⟩,
    ⟨by decide,
      (reinsert_ok_iff_absent (fun n => n) ⟨[9]⟩
          (Removed.new ⟨9, noPins⟩)).2 (by decide)⟩⟩

/-- C10: a failed unwrap never loses the element: whenever
`Removed::try_into` returns `Err`, the returned `Removed` dereferences to
the same element as before; and whenever `Removed::try_as_mut` returns
`None`, the handle is unchanged and its key remains readable through
`Deref`. -/
theorem removed_failed_unwrap_keeps_element {α : Type} (r r2 : Removed α)
    (h1 : Removed.tryInto r = Except.error r2)
    (h2 : (Removed.tryAsMut r).1 = none) :
    Removed.deref r2 = Removed.deref r ∧
    (Removed.tryAsMut r).2 = r ∧
    Removed.deref (Removed.tryAsMut r).2 = Removed.deref r := by
  have hmut : (Removed.tryAsMut r).2 = r := by
    unfold Removed.tryAsMut MapRemoved.tryAsMut
    by_cases hp : r.inner.origin.unwrapAllowed <;>
      simp [hp, Removed.new]
  refine ⟨?_, hmut, by rw [hmut]⟩
  unfold Removed.tryInto MapRemoved.tryInto at h1
  by_cases hp : r.inner.origin.unwrapAllowed
  · simp [hp] at h1
  · simp [hp, Removed.new] at h1
    rw [← h1]

/-- Witness for C10: a `Removed` whose origin is alive and has one active
pin; both unwrap attempts fail and the element `5` stays readable. -/
theorem removed_failed_unwrap_keeps_element_witness :
    Removed.tryInto (Removed.new (⟨5, ⟨false, 1⟩⟩ : MapRemoved Nat)) =
      Except.error (Removed.new ⟨5, ⟨false, 1⟩⟩) ∧
    (Removed.tryAsMut (Removed.new (⟨5, ⟨false, 1⟩⟩ : MapRemoved Nat))).1 =
      none ∧
    (Removed.deref (Removed.new (⟨5, ⟨false, 1⟩⟩ : MapRemoved Nat)) =
        Removed.deref (Removed.new ⟨5, ⟨false, 1⟩⟩) ∧
      (Removed.tryAsMut
          (Removed.new (⟨5, ⟨false, 1⟩⟩ : MapRemoved Nat))).2 =
        Removed.new ⟨5, ⟨false, 1⟩⟩ ∧
      Removed.deref
          (Removed.tryAsMut
            (Removed.new (⟨5, ⟨false, 1⟩⟩ : MapRemoved Nat))).2 =
        Removed.deref (Removed.new ⟨5, ⟨false, 1⟩⟩)) :=
  ⟨rfl, rfl,
    removed_failed_unwrap_keeps_element (Removed.new ⟨5, ⟨false, 1⟩⟩)
      (Removed.new ⟨5, ⟨false, 1⟩⟩) rfl rfl⟩
